import Mathlib

/-!
Shallow embedding of the mkpkg package build orchestrator
(src/progress.rs, src/network.rs, src/package.rs, src/archive.rs),
together with theorems settling the specification claims.

Conventions of the embedding:
* filesystem paths are lists of components (`Path := List String`),
  mirroring Rust `PathBuf` with `join` as list append and
  `Path::starts_with` as component-wise list prefix;
* byte strings (Rust `&[u8]` / `OsStr` bytes) are `List Nat`;
* external effects (HTTP requests, the filesystem, canonicalization)
  enter as explicit data or oracle parameters, and effectful code is
  embedded either as a decision function over those inputs or as a
  trace of the operations it performs, in order;
* the concurrent pipeline engine of `Progress::run` is embedded as its
  single-worker determinization: one worker drains the stage-0 queue,
  pushing each success into the stage-1 queue, then advances, exactly
  as one thread of `Progress::progress_handler` does.  Promotion and
  error accounting are per-item and identical across interleavings.
-/

namespace Mkpkg

/-! ### Paths and core data (src/config.rs fields used by the cited modules, src/package.rs) -/

/-- A filesystem path as a list of components (Rust `PathBuf`). -/
abbrev Path := List String

/-- The configuration fields constructed in `main.rs` and consumed by
`progress.rs` / `network.rs` / `archive.rs`. -/
structure Config where
  pkgbuildDir : Path
  buildDir : Path
  logDir : Path
  verbose : Bool
  clobber : Bool
  failFast : Bool
  parallelDownload : Option Nat
  parallelBuild : Option Nat
  deriving Repr, DecidableEq

/-- The fields of a loaded `BuildFile` needed for path derivation
(`package.rs`): `version` is kept as its rendered string. -/
structure BuildFile where
  name : String
  version : String
  parentDir : Path
  deriving Repr, DecidableEq

/-- `Package::base_dir`: `<build_dir>/<name>-<version>` (package.rs). -/
def base_dir (config : Config) (pkg : BuildFile) : Path :=
  config.buildDir ++ [pkg.name ++ "-" ++ pkg.version]

/-- `Package::download_dir`: `<base_dir>/src` (package.rs). -/
def download_dir (config : Config) (pkg : BuildFile) : Path :=
  base_dir config pkg ++ ["src"]

/-- `Package::pkg_dir`: `<base_dir>/pkg` (package.rs). -/
def pkg_dir (config : Config) (pkg : BuildFile) : Path :=
  base_dir config pkg ++ ["pkg"]

/-! ### Variable substitution (src/package.rs: `subst_vars`, `BuildFile::open`) -/

/-- Worker for `charSplitOn`, with fuel for structural recursion: scan
left to right; whenever the remainder starts with the (nonempty)
separator, emit the accumulated piece and skip the separator. -/
def splitOnFuel (sep : List Char) : Nat → List Char → List Char → List (List Char)
  | 0, rest, acc => [acc.reverse ++ rest]
  | fuel + 1, s, acc =>
    match s with
    | [] => [acc.reverse]
    | c :: cs =>
      if sep.isPrefixOf (c :: cs) then
        acc.reverse :: splitOnFuel sep fuel (List.drop sep.length (c :: cs)) []
      else
        splitOnFuel sep fuel cs (c :: acc)

/-- Rust `str::split` on a literal pattern (leftmost, non-overlapping):
the pieces of `s` between consecutive occurrences of `sep`.  `subst_vars`
only ever splits on `"$" ++ key`, which is nonempty. -/
def charSplitOn (s sep : List Char) : List (List Char) :=
  if sep.isEmpty then [s] else splitOnFuel sep (s.length + 1) s []

/-- `subst_vars(input, key, value)` from package.rs: split `input` on
`key`; keep the first piece; before each later piece insert `key` back
when the piece starts with an identifier-continue character
(`UnicodeXID::is_xid_continue`, abstracted as the parameter `xid`),
otherwise insert `value`. -/
def subst_vars (xid : Char → Bool) (input key value : String) : String :=
  match charSplitOn input.data key.data with
  | [] => ""
  | first :: rest =>
    ⟨rest.foldl
      (fun acc piece =>
        (acc ++
          match piece with
          | c :: _ => if xid c then key.data else value.data
          | [] => value.data) ++ piece)
      first⟩

/-- `UnicodeXID::is_xid_continue` restricted to the ASCII range, where
XID_Continue is exactly `[0-9A-Za-z_]`.  All concrete inputs used in
the theorems below are ASCII. -/
def asciiXidContinue (c : Char) : Bool :=
  c.isAlphanum || c == '_'

/-- The raw textual fields of a parsed recipe that `BuildFile::open`
substitutes into (package.rs lines 106-133). -/
structure RawPackage where
  name : String
  version : String
  description : String
  license : List String
  source : List String
  deriving Repr, DecidableEq

/-- The substitution phase of `BuildFile::open` (package.rs): for each
`env` entry `(k, v)` in order, replace `$k` in name, version,
description, each license and each source; then substitute the
implicit `$name` and `$version` (using the already-substituted name
and version) into the description and each source.  The Rust `HashMap`
iteration order is abstracted as the order of the association list. -/
def open_subst (xid : Char → Bool) (env : List (String × String)) (p : RawPackage) :
    RawPackage :=
  let p := env.foldl
    (fun p kv =>
      let key := "$" ++ kv.1
      { name := subst_vars xid p.name key kv.2
        version := subst_vars xid p.version key kv.2
        description := subst_vars xid p.description key kv.2
        license := p.license.map (fun l => subst_vars xid l key kv.2)
        source := p.source.map (fun s => subst_vars xid s key kv.2) })
    p
  let descr := subst_vars xid p.description "$name" p.name
  let descr := subst_vars xid descr "$version" p.version
  { p with
    description := descr
    source := p.source.map
      (fun s => subst_vars xid (subst_vars xid s "$name" p.name) "$version" p.version) }

/-- Decides whether `s` still contains a substring `$k` whose following
character is absent or not identifier-continue — the residue the
substitution invariant of the specification forbids. -/
def hasBadKeyOccurrence (xid : Char → Bool) (k : String) (s : String) : Bool :=
  let key := ('$' :: k.data)
  let cs := s.data
  (List.range cs.length).any fun i =>
    key.isPrefixOf (cs.drop i) &&
      (match (cs.drop (i + key.length)).head? with
       | none => true
       | some c => !(xid c))

/-! ### Destination filename from a source specifier (src/package.rs: `Package::file_path`) -/

/-- The part of a parsed `url::Url` that `Package::file_path` consults:
`path_segments()` is `none` for cannot-be-a-base URLs, otherwise the
path split on `/` (the `url` crate guarantees the list is nonempty). -/
structure UrlModel where
  scheme : String
  pathSegments : Option (List String)
  deriving Repr, DecidableEq

/-- Outcome of `Url::parse` on a source string: a URL, or not a URL
(the string itself is then used as the filename). -/
inductive SrcParse where
  | url (u : UrlModel)
  | notUrl (s : String)
  deriving Repr, DecidableEq

/-- `PackageError` constructors touched by the claims (package.rs). -/
inductive PackageErrorM where
  | unknownFilePath (u : UrlModel)
  deriving Repr, DecidableEq

/-- `Package::file_path` (package.rs lines 324-337): for a URL take the
last path segment, failing with `UnknownFilePath` when there are no
path segments or the last one is empty; otherwise return the source
string unchanged.  The `.last().unwrap()` panic on an empty segment
list (impossible per the `url` crate) is modelled as `none`. -/
def file_path : SrcParse → Option (Except PackageErrorM String)
  | .notUrl s => some (.ok s)
  | .url u =>
    match u.pathSegments with
    | none => some (.error (.unknownFilePath u))
    | some segs =>
      match segs.getLast? with
      | none => none
      | some filename =>
        if filename.length = 0 then some (.error (.unknownFilePath u))
        else some (.ok filename)

/-! ### HTTP download planning (src/network.rs: `supports_range`, `download_http`) -/

/-- `reqwest::header::RangeUnit` as matched by `supports_range`. -/
inductive RangeUnitM where
  | bytes
  | noneUnit
  | unregistered (s : String)
  deriving Repr, DecidableEq

/-- The headers of a HEAD response that `supports_range` inspects. -/
structure HeadResp where
  acceptRanges : Option (List RangeUnitM)
  contentLength : Option Nat
  deriving Repr, DecidableEq

/-- Rust `Option::and`: keep `b` exactly when `a` is `Some`, discarding
`a`'s value. -/
def rustOptionAnd {α β : Type} (a : Option α) (b : Option β) : Option β :=
  match a with
  | some _ => b
  | none => none

/-- `Downloader::supports_range` (network.rs lines 401-408): on the HEAD
response (`none` when the request failed), map the `Accept-Ranges`
header to `contains(Bytes) as u64` and then `.and` it with the parsed
`Content-Length` — so the computed bytes-support flag is discarded and
only the presence of both headers matters. -/
def supports_range (head : Option HeadResp) : Option Nat :=
  head.bind fun res =>
    rustOptionAnd
      (res.acceptRanges.map (fun h => if h.contains RangeUnitM.bytes then (1 : Nat) else 0))
      res.contentLength

/-- What `download_http` decides to do before streaming the body
(network.rs lines 301-370): return early, or issue the GET with an
optional `Range: bytes=<n>-` header and the chosen open mode. -/
inductive HttpAction where
  | alreadyDone
  | get (rangeFrom : Option Nat) (append : Bool) (truncateCreate : Bool)
  deriving Repr, DecidableEq

/-- The header/open-mode logic of `Downloader::download_http`
(network.rs lines 301-341): when the destination exists and clobber is
off and `supports_range` yields a length, compare it with the existing
file size — equal means done, smaller means `Range: bytes=<len>-` plus
append mode; in every other case no header is set and the destination
is opened with create+truncate. -/
def download_http_plan (clobber fileExists : Bool) (fileLen : Nat)
    (head : Option HeadResp) : HttpAction :=
  if fileExists && !clobber then
    match supports_range head with
    | some length =>
      if length = fileLen then .alreadyDone
      else if fileLen < length then .get (some fileLen) true false
      else .get none false true
    | none => .get none false true
  else .get none false true

/-! ### File sources (src/network.rs: `Downloader::download`, else branch) -/

/-- `NetworkError` constructors touched by the claims (network.rs). -/
inductive NetworkErrorM where
  | canonicalizeE (p : Path)
  | invalidSource (p : Path)
  deriving Repr, DecidableEq

/-- The non-URL branch of `Downloader::download` (network.rs lines
148-168), with canonicalization as an oracle `canon` (`none` models an
IO failure): canonicalize the recipe root, resolve the source relative
to the recipe's parent directory beneath it, canonicalize the result,
and copy it into `src/` only when it still lies under the root,
otherwise fail with `InvalidSource` carrying the canonicalized path.
The result records the copy `copy_dir(from, to)` that is performed. -/
def download_file_source (canon : Path → Option Path) (config : Config)
    (pkg : BuildFile) (srcItem : Path) : Except NetworkErrorM (Path × Path) :=
  match canon config.pkgbuildDir with
  | none => .error (.canonicalizeE config.pkgbuildDir)
  | some pkgbuildDir =>
    let filepath := pkgbuildDir ++ pkg.parentDir ++ srcItem
    match canon filepath with
    | none => .error (.canonicalizeE filepath)
    | some filepath =>
      if pkgbuildDir.isPrefixOf filepath then
        .ok (filepath, download_dir config pkg)
      else
        .error (.invalidSource filepath)

/-! ### Archive extraction dispatch (src/archive.rs: `Archiver::extract`, `try_extraction`) -/

/-- Byte strings, for the raw-byte suffix matching of `extract`. -/
abbrev ByteStr := List Nat

/-- The bytes of an ASCII string literal. -/
def bytes (s : String) : ByteStr :=
  s.data.map Char.toNat

/-- `IS_TAR` (archive.rs line 157). -/
def IS_TAR : List ByteStr :=
  [bytes ".tar.gz", bytes ".tar.bz2", bytes ".tar.xz", bytes ".tgz", bytes ".tbz",
    bytes ".txz"]

/-- `IS_GZ` (archive.rs line 165). -/
def IS_GZ : List ByteStr := [bytes ".gz", bytes ".tgz"]

/-- `IS_BZIP2` (archive.rs line 166). -/
def IS_BZIP2 : List ByteStr := [bytes ".bz2", bytes ".tbz"]

/-- `IS_XZ` (archive.rs line 167). -/
def IS_XZ : List ByteStr := [bytes ".xz", bytes ".txz"]

/-- `Archiver::try_extraction` (archive.rs lines 213-226) runs its
action exactly when some listed extension is a suffix of the filename;
all extensions of one list select the same action, so only the match
matters. -/
def try_extraction_matches (filename : ByteStr) (exts : List ByteStr) : Bool :=
  exts.any (fun ext => ext.isSuffixOf filename)

/-- The three codecs (`GzDecoder` / `BzDecoder` / `XzDecoder`). -/
inductive Codec where
  | gz
  | bz2
  | xz
  deriving Repr, DecidableEq

/-- What `Archiver::extract` does with one source file. -/
inductive ExtractAction where
  | unpackTar (decompressedWith : Option Codec)
  | decompressOnly (c : Codec)
  | copyAsIs
  deriving Repr, DecidableEq

/-- The per-source dispatch of `Archiver::extract` (archive.rs lines
152-207): try gzip, then bzip2, then xz decompression by suffix; then,
if a tar suffix matches, unpack the (possibly decompressed) file as a
tar archive; if nothing matched, copy the file into `build/` as-is. -/
def extract_action (filename : ByteStr) : ExtractAction :=
  let dec : Option Codec :=
    if try_extraction_matches filename IS_GZ then some .gz
    else if try_extraction_matches filename IS_BZIP2 then some .bz2
    else if try_extraction_matches filename IS_XZ then some .xz
    else none
  if try_extraction_matches filename IS_TAR then .unpackTar dec
  else
    match dec with
    | some c => .decompressOnly c
    | none => .copyAsIs

/-! ### Packaging trace (src/archive.rs: `Archiver::package`) -/

/-- The filesystem/codec operations `Archiver::package` performs, in
order, on its happy path (archive.rs lines 91-135). -/
inductive PkgEffect where
  | openReadWriteCreateTruncate (p : Path)
  | tarAppendDirAll (destInArchive : String) (dir : Path) (followSymlinks : Bool)
  | tarFinish
  | seekStart (p : Path)
  | createFile (p : Path)
  | xzCompress (level : Nat) (src dst : Path)
  | removeFile (p : Path)
  deriving Repr, DecidableEq

/-- `Archiver::XZ_LEVEL` (archive.rs line 85). -/
def XZ_LEVEL : Nat := 6

/-- The operation trace of `Archiver::package` (archive.rs lines
91-135): open `<base>/<name>-<version>.tar` truncated, append the
whole `pkg/` tree under `"."` with `follow_symlinks(false)`, finish
the tar, rewind it, create `<base>/<name>-<version>.tar.xz`, stream
the tar through `XzEncoder` at level 6 into it, and remove the
intermediate tar. -/
def package_trace (config : Config) (pkg : BuildFile) : List PkgEffect :=
  let tarPath := base_dir config pkg ++ [pkg.name ++ "-" ++ pkg.version ++ ".tar"]
  let xzPath := base_dir config pkg ++ [pkg.name ++ "-" ++ pkg.version ++ ".tar.xz"]
  [ .openReadWriteCreateTruncate tarPath
  , .tarAppendDirAll "." (pkg_dir config pkg) false
  , .tarFinish
  , .seekStart tarPath
  , .createFile xzPath
  , .xzCompress XZ_LEVEL tarPath xzPath
  , .removeFile tarPath ]

/-! ### Worker-pool size (src/progress.rs: `Progress::new`, `Progress::run`) -/

/-- `Progress::new` (progress.rs lines 64-78): `bar_count` is
`min(pkgs + 1, cpu_count)`, then capped at `parallel_download + 1` and
`parallel_build + 1` when those options are set, with a floor of 2. -/
def bar_count (cpuCount pkgsLen : Nat)
    (parallelDownload parallelBuild : Option Nat) : Nat :=
  let bc := Nat.min (pkgsLen + 1) cpuCount
  let bc :=
    match parallelDownload with
    | some d => Nat.min bc (d + 1)
    | none => bc
  let bc :=
    match parallelBuild with
    | some b => Nat.min bc (b + 1)
    | none => bc
  Nat.max bc 2

/-- `Progress::run` (progress.rs lines 115-152) creates `bar_count - 1`
per-worker lanes and spawns one worker thread per lane. -/
def lane_count (cpuCount pkgsLen : Nat)
    (parallelDownload parallelBuild : Option Nat) : Nat :=
  bar_count cpuCount pkgsLen parallelDownload parallelBuild - 1

/-! ### Pipeline engine (src/progress.rs: `Progress::progress_handler`) -/

/-- The observable behaviour of one `iter_fn` invocation on one recipe:
the errors it reports through the `add_error` callback while running,
in order, and the value it returns (`none` = `Ok`). -/
structure Outcome where
  cbErrors : List Nat
  res : Option Nat
  deriving Repr, DecidableEq

/-- An entry of the mutex-guarded error bag, tagged with its origin:
a base-directory creation failure, an error reported through the
callback, or an error returned by the stage's iter function. -/
inductive EngErr where
  | dirFail (r : Nat)
  | cb (r : Nat) (e : Nat)
  | iter (r : Nat) (e : Nat)
  deriving Repr, DecidableEq

/-- Whether `progress_handler` promotes recipe `r` past the current
stage (progress.rs lines 197-217): the base directory must exist or be
creatable (checked on the recipe's first stage, `checkDir`), and the
iter function must return `Ok` — errors reported through the callback
play no part. -/
def stepOk (checkDir : Bool) (dirOk : Nat → Bool) (out : Nat → Outcome) (r : Nat) :
    Bool :=
  (!checkDir || dirOk r) && (out r).res.isNone

/-- The error-bag entries one recipe contributes at one stage
(progress.rs lines 186-217): a dir-creation failure short-circuits;
otherwise the callback errors in order, then the iter error if any. -/
def recipeErrors (checkDir : Bool) (dirOk : Nat → Bool) (out : Nat → Outcome)
    (r : Nat) : List EngErr :=
  if checkDir && !dirOk r then [.dirFail r]
  else
    (out r).cbErrors.map (.cb r ·) ++
      (match (out r).res with
       | some e => [.iter r e]
       | none => [])

/-- The recipes a stage pushes into the next stage's queue, in order. -/
def stageSurvivors (checkDir : Bool) (dirOk : Nat → Bool) (out : Nat → Outcome)
    (q : List Nat) : List Nat :=
  q.filter (stepOk checkDir dirOk out)

/-- The recipes a stage drops (dir-creation failure or iter error). -/
def stageDropped (checkDir : Bool) (dirOk : Nat → Bool) (out : Nat → Outcome)
    (q : List Nat) : List Nat :=
  q.filter (fun r => !(stepOk checkDir dirOk out r))

/-- The error-bag entries a stage appends, in queue order. -/
def stageErrors (checkDir : Bool) (dirOk : Nat → Bool) (out : Nat → Outcome)
    (q : List Nat) : List EngErr :=
  q.flatMap (recipeErrors checkDir dirOk out)

/-- The observable final state of `Progress::run`: the totals bar
position (recipes that cleared the last stage), the error bag, and the
number of recipes dropped at some stage. -/
structure EngineResult where
  pos : Nat
  errors : List EngErr
  dropped : Nat
  deriving Repr, DecidableEq

/-- The single-worker determinization of the engine loop
(progress.rs lines 140-152 and 171-227): drain the current stage's
queue — on success push into the next queue, or increment the totals
bar when the stage is the last — then advance to the next stage.
`checkDir` is true at the first stage only: a recipe reaching a later
stage already had its base directory created. -/
def runEngine (dirOk : Nat → Bool) :
    List (Nat → Outcome) → Bool → List Nat → EngineResult
  | [], _, _ => ⟨0, [], 0⟩
  | [f], checkDir, q =>
    ⟨(stageSurvivors checkDir dirOk f q).length,
      stageErrors checkDir dirOk f q,
      (stageDropped checkDir dirOk f q).length⟩
  | f :: g :: fs, checkDir, q =>
    let rest := runEngine dirOk (g :: fs) false (stageSurvivors checkDir dirOk f q)
    ⟨rest.pos,
      stageErrors checkDir dirOk f q ++ rest.errors,
      (stageDropped checkDir dirOk f q).length + rest.dropped⟩

/-- The observable behaviour of the download stage's iter function
(network.rs `Downloader::download_setup`, lines 92-114): if creating
`src/` fails the iter function returns that error; otherwise each
failing source (entry `some e` of `srcResults`) is reported through
the callback and the iter function still returns `Ok`. -/
def download_iter_outcome (dirCreateOk : Bool) (srcResults : List (Option Nat)) :
    Outcome :=
  if dirCreateOk then ⟨srcResults.filterMap id, none⟩ else ⟨[], some 0⟩

end Mkpkg

namespace Mkpkg

/-! ### Helper lemmas -/

/-- Two suffixes of the same list are comparable; if neither of two
lists is a suffix of the other, they cannot both be suffixes. -/
theorem suffix_incomp {a b f : ByteStr} (ha : a <:+ f) (h1 : ¬a <:+ b)
    (h2 : ¬b <:+ a) : ¬b <:+ f :=
  fun hb => (List.suffix_or_suffix_of_suffix ha hb).elim h1 h2

/-- `try_extraction_matches` holds exactly when some listed extension
is a suffix of the filename. -/
theorem try_extraction_matches_iff (f : ByteStr) (exts : List ByteStr) :
    try_extraction_matches f exts = true ↔ ∃ e ∈ exts, e <:+ f := by
  simp [try_extraction_matches, List.any_eq_true, List.isSuffixOf_iff_suffix]

/-- Negation form of `try_extraction_matches_iff`. -/
theorem try_extraction_matches_eq_false (f : ByteStr) (exts : List ByteStr) :
    try_extraction_matches f exts = false ↔ ∀ e ∈ exts, ¬e <:+ f := by
  simp [try_extraction_matches, List.any_eq_false, List.isSuffixOf_iff_suffix]

end Mkpkg

namespace Mkpkg

/-! ### C1 -/

/-- C1 counterexample: a recipe whose download stage records a
per-source error through the error callback (the iter function still
returning `Ok`) IS pushed into the next stage's queue, refuting the
claim that any recorded error prevents promotion. -/
theorem c1_callback_error_still_promoted :
    stageSurvivors true (fun _ => true) (fun _ => download_iter_outcome true [some 7])
        [0] = [0] ∧
      stageErrors true (fun _ => true) (fun _ => download_iter_outcome true [some 7])
        [0] = [.cb 0 7] := by
  constructor <;> rfl

/-- C1 (amended): a recipe is promoted past a stage exactly when its
base directory check passes and the stage's iter function returns
`Ok`; errors reported through the callback alone never prevent
promotion, and the download stage's iter function returns `Ok`
whenever the `src/` directory could be created, regardless of
per-source failures. -/
theorem c1_promotion_iff_iter_ok :
    (∀ (checkDir : Bool) (dirOk : Nat → Bool) (out : Nat → Outcome) (q : List Nat)
        (r : Nat),
      r ∈ stageSurvivors checkDir dirOk out q ↔
        r ∈ q ∧ (checkDir = true → dirOk r = true) ∧ (out r).res = none) ∧
    (∀ srcResults, (download_iter_outcome true srcResults).res = none) := by
  constructor
  · intro checkDir dirOk out q r
    simp only [stageSurvivors, List.mem_filter, stepOk, Bool.and_eq_true,
      Bool.or_eq_true, Bool.not_eq_true', Option.isNone_iff_eq_none]
    constructor
    · rintro ⟨hq, hdir, hres⟩
      refine ⟨hq, ?_, hres⟩
      intro hc
      cases hdir with
      | inl h => simp [hc] at h
      | inr h => exact h
    · rintro ⟨hq, hdir, hres⟩
      refine ⟨hq, ?_, hres⟩
      cases checkDir with
      | false => exact Or.inl rfl
      | true => exact Or.inr (hdir rfl)
  · intro srcResults
    rfl

/-- C1 witness: the promotion criterion applied at a concrete input. -/
theorem c1_promotion_iff_iter_ok_witness :
    (5 ∈ stageSurvivors true (fun _ => true) (fun _ => Outcome.mk [] none) [5]) ∧
      (download_iter_outcome true [some 3]).res = none :=
  ⟨(c1_promotion_iff_iter_ok.1 true (fun _ => true) (fun _ => Outcome.mk [] none)
      [5] 5).mpr ⟨by decide, fun _ => rfl, rfl⟩,
    c1_promotion_iff_iter_ok.2 [some 3]⟩

/-! ### C2 -/

/-- C2 counterexample: one recipe, two stages; the download stage
reports one per-source error through the callback and returns `Ok`, so
the recipe still clears the last stage — the totals bar ends at 1
while one error sits in the bag, and 1 + 1 is not the batch size 1. -/
theorem c2_totals_plus_errors_ne_batch :
    ¬((runEngine (fun _ => true)
          [fun _ => download_iter_outcome true [some 5], fun _ => Outcome.mk [] none]
          true [0]).pos +
        (runEngine (fun _ => true)
          [fun _ => download_iter_outcome true [some 5], fun _ => Outcome.mk [] none]
          true [0]).errors.length =
      ([0] : List Nat).length) := by
  decide

/-- C2 (amended): when at least one stage is configured, the totals
bar's final position plus the number of recipes dropped at some stage
(iter error or base-directory failure) equals the batch size; the
error-bag length can exceed the dropped count because callback errors
do not drop a recipe. -/
theorem c2_totals_plus_dropped_eq_batch :
    ∀ (dirOk : Nat → Bool) (outs : List (Nat → Outcome)) (checkDir : Bool)
      (q : List Nat), outs ≠ [] →
      (runEngine dirOk outs checkDir q).pos + (runEngine dirOk outs checkDir q).dropped =
        q.length := by
  intro dirOk outs
  induction outs with
  | nil => intro checkDir q h; exact absurd rfl h
  | cons f fs ih =>
    intro checkDir q _
    cases fs with
    | nil =>
      simp only [runEngine, stageSurvivors, stageDropped]
      exact (List.length_eq_length_filter_add (stepOk checkDir dirOk f)).symm
    | cons g fs =>
      have hrec := ih checkDir (stageSurvivors checkDir dirOk f q)
      simp only [runEngine]
      have hpart :
          (stageSurvivors checkDir dirOk f q).length +
              (stageDropped checkDir dirOk f q).length = q.length := by
        simp only [stageSurvivors, stageDropped]
        exact (List.length_eq_length_filter_add (stepOk checkDir dirOk f)).symm
      have := ih false (stageSurvivors checkDir dirOk f q) (by simp)
      omega

/-- C2 witness: the conservation law applied at a concrete input. -/
theorem c2_totals_plus_dropped_eq_batch_witness :
    (runEngine (fun _ => true) [fun _ => Outcome.mk [] none] true [0]).pos +
        (runEngine (fun _ => true) [fun _ => Outcome.mk [] none] true [0]).dropped =
      ([0] : List Nat).length :=
  c2_totals_plus_dropped_eq_batch (fun _ => true) [fun _ => Outcome.mk [] none] true [0]
    (by simp)

end Mkpkg

namespace Mkpkg

/-! ### C3 -/

/-- C3: `supports_range` discards the computed
`Accept-Ranges contains bytes` flag (`as u64` followed by Rust
`Option::and`), so with an existing 400-byte destination, clobber off,
and a HEAD response `Accept-Ranges: none, Content-Length: 1000` —
whose `Accept-Ranges` does NOT advertise byte ranges — the code still
sends `Range: bytes=400-` and opens the destination in append mode,
contradicting the claim (and the code's own comment and the name
`supports_range`). -/
theorem c3_range_sent_despite_no_bytes_support :
    download_http_plan false true 400
        (some ⟨some [RangeUnitM.noneUnit], some 1000⟩) =
      .get (some 400) true false ∧
    [RangeUnitM.noneUnit].contains RangeUnitM.bytes = false ∧
    supports_range (some ⟨some [RangeUnitM.noneUnit], some 1000⟩) = some 1000 := by
  refine ⟨rfl, rfl, rfl⟩

/-! ### C4 -/

/-- C4 counterexample: with `env = {a: "$a"}` (a value that mentions
its own key) and description `"$a"`, substitution is a single pass, so
the loaded description is still `"$a"` — a substring `$a` for the env
key `a` remains although the character after it is absent (not
identifier-continue), refuting the claimed invariant. -/
theorem c4_value_introduced_key_remains :
    (open_subst asciiXidContinue [("a", "$a")]
        ⟨"pkg", "1.0.0", "$a", [], []⟩).description = "$a" ∧
      hasBadKeyOccurrence asciiXidContinue "a"
        ((open_subst asciiXidContinue [("a", "$a")]
          ⟨"pkg", "1.0.0", "$a", [], []⟩).description) = true := by
  refine ⟨rfl, by decide⟩

/-- C4 (amended): substitution is one pass per key, in env order —
occurrences of `$K` in the input are replaced (and kept when the next
character is identifier-continue), while occurrences contained in or
created by substituted values are not re-substituted and may remain.
A field without any occurrence of the key is unchanged, and the
spec's example (env `{name: "foo"}`, description
`"$name and $nameserver"`) loads as `"foo and $nameserver"`. -/
theorem c4_one_pass_substitution :
    (∀ (xid : Char → Bool) (input key value : String),
      charSplitOn input.data key.data = [input.data] →
        subst_vars xid input key value = input) ∧
    (open_subst asciiXidContinue [("name", "foo")]
        ⟨"foo", "1.0.0", "$name and $nameserver", [], []⟩).description =
      "foo and $nameserver" := by
  constructor
  · intro xid input key value h
    simp [subst_vars, h]
  · rfl

/-- C4 witness: the no-occurrence case and the spec example at
concrete inputs. -/
theorem c4_one_pass_substitution_witness :
    subst_vars asciiXidContinue "abc" "$k" "v" = "abc" ∧
      (open_subst asciiXidContinue [("name", "foo")]
          ⟨"foo", "1.0.0", "$name and $nameserver", [], []⟩).description =
        "foo and $nameserver" :=
  ⟨c4_one_pass_substitution.1 asciiXidContinue "abc" "$k" "v" (by decide),
    c4_one_pass_substitution.2⟩

/-! ### C6 -/

/-- C6 counterexample: with cpu_count 20, 10 recipes and
`parallel_download = 4`, the code yields `bar_count = 5` (the cap is
`parallel_download + 1`), not the claimed
`max(min(min(10+1, 20), 4), 2) = 4`; and read as the number of
per-worker lanes (which is `bar_count − 1`), the claim already fails
with no caps set: 4 lanes versus the claimed 5 at cpu_count 5. -/
theorem c6_worker_count_counterexample :
    bar_count 20 10 (some 4) none ≠ Nat.max (Nat.min (Nat.min (10 + 1) 20) 4) 2 ∧
      lane_count 5 10 none none ≠ Nat.max (Nat.min (10 + 1) 5) 2 := by
  decide

/-- C6 (amended): `bar_count` (the totals bar plus the worker lanes)
equals `min(recipes + 1, cpu_count)` capped at `parallel_download + 1`
and `parallel_build + 1` when those options are set, with a floor of
2; the number of worker lanes (and worker threads) is `bar_count − 1`. -/
theorem c6_bar_count_formula :
    ∀ cpuCount pkgsLen d b : Nat,
      bar_count cpuCount pkgsLen (some d) (some b) =
        Nat.max (Nat.min (Nat.min (pkgsLen + 1) cpuCount) (Nat.min (d + 1) (b + 1))) 2 ∧
      bar_count cpuCount pkgsLen (some d) none =
        Nat.max (Nat.min (Nat.min (pkgsLen + 1) cpuCount) (d + 1)) 2 ∧
      bar_count cpuCount pkgsLen none (some b) =
        Nat.max (Nat.min (Nat.min (pkgsLen + 1) cpuCount) (b + 1)) 2 ∧
      bar_count cpuCount pkgsLen none none =
        Nat.max (Nat.min (pkgsLen + 1) cpuCount) 2 ∧
      lane_count cpuCount pkgsLen (some d) (some b) =
        Nat.max (Nat.min (Nat.min (pkgsLen + 1) cpuCount) (Nat.min (d + 1) (b + 1))) 2 - 1 := by
  intro cpuCount pkgsLen d b
  refine ⟨?_, ?_, ?_, ?_, ?_⟩ <;> simp only [bar_count, lane_count, Nat.min_assoc]

/-! ### C10 -/

/-- C10: when the destination exists (clobber off) but the HEAD
request failed, or its response lacks `Accept-Ranges` or
`Content-Length`, `supports_range` yields `None` and resumption is
silently skipped: no error is surfaced, the GET carries no `Range`
header, no append happens, and the destination is opened with
create+truncate for a full re-download. -/
theorem c10_missing_head_info_truncates :
    ∀ (fileLen : Nat) (head : Option HeadResp),
      (head = none ∨
        ∃ r, head = some r ∧ (r.acceptRanges = none ∨ r.contentLength = none)) →
      download_http_plan false true fileLen head = .get none false true := by
  intro fileLen head h
  rcases h with h | ⟨r, hr, hfield⟩
  · subst h; rfl
  · subst hr
    rcases hfield with h | h
    · simp [download_http_plan, supports_range, rustOptionAnd, h]
    · cases hacc : r.acceptRanges <;>
        simp [download_http_plan, supports_range, rustOptionAnd, hacc, h]

/-- C10 witness: a failed HEAD request at a concrete input. -/
theorem c10_missing_head_info_truncates_witness :
    download_http_plan false true 400 none = .get none false true :=
  c10_missing_head_info_truncates 400 none (Or.inl rfl)

end Mkpkg

namespace Mkpkg

/-! ### C7 -/

/-- C7: a non-URL source is resolved against the canonicalized recipe
root joined with the recipe's parent directory, and the resolved path
is canonicalized; if the canonicalized path does not lie under the
canonicalized root the fetch fails with `InvalidSource` carrying that
path and no copy is performed, otherwise the tree is copied into the
recipe's `src/` directory. -/
theorem c7_relative_source_containment :
    ∀ (canon : Path → Option Path) (config : Config) (pkg : BuildFile)
      (src root p : Path),
      canon config.pkgbuildDir = some root →
      canon (root ++ pkg.parentDir ++ src) = some p →
      ((root.isPrefixOf p = false →
          download_file_source canon config pkg src =
            .error (.invalidSource p)) ∧
        (root.isPrefixOf p = true →
          download_file_source canon config pkg src =
            .ok (p, download_dir config pkg))) := by
  intro canon config pkg src root p hroot hpath
  have hpath2 : canon (root ++ (pkg.parentDir ++ src)) = some p := by
    rw [← List.append_assoc]; exact hpath
  constructor <;> intro hpre <;>
    simp [download_file_source, hroot, hpath, hpath2, hpre]

/-- C7 witness: a canonicalization oracle under which the resolved
path escapes the root (an `InvalidSource` failure with the
canonicalized path), applied through the containment theorem. -/
theorem c7_relative_source_containment_witness :
    download_file_source
        (fun q => if q = ["root", "x", "up"] then some ["etc"] else some q)
        ⟨["root"], ["build"], ["logs"], false, false, false, none, none⟩
        ⟨"foo", "1.0.0", ["x"]⟩ ["up"] =
      .error (.invalidSource ["etc"]) :=
  (c7_relative_source_containment
      (fun q => if q = ["root", "x", "up"] then some ["etc"] else some q)
      ⟨["root"], ["build"], ["logs"], false, false, false, none, none⟩
      ⟨"foo", "1.0.0", ["x"]⟩ ["up"] ["root"] ["etc"]
      (by decide) (by decide)).1 (by decide)

/-! ### C8 -/

/-- C8: after a successful build, `Archiver::package` writes a tar of
`pkg/` with entries under `"."` and symlinks preserved (not followed)
into the intermediate `<build_dir>/<name>-<version>/<name>-<version>.tar`,
compresses it with xz at level 6 into
`<build_dir>/<name>-<version>/<name>-<version>.tar.xz`, and finally
removes the intermediate tar — in exactly that order. -/
theorem c8_package_trace_spec :
    ∀ (config : Config) (pkg : BuildFile),
      package_trace config pkg =
        [ .openReadWriteCreateTruncate
            (config.buildDir ++
              [pkg.name ++ "-" ++ pkg.version, pkg.name ++ "-" ++ pkg.version ++ ".tar"])
        , .tarAppendDirAll "."
            (config.buildDir ++ [pkg.name ++ "-" ++ pkg.version, "pkg"]) false
        , .tarFinish
        , .seekStart
            (config.buildDir ++
              [pkg.name ++ "-" ++ pkg.version, pkg.name ++ "-" ++ pkg.version ++ ".tar"])
        , .createFile
            (config.buildDir ++
              [pkg.name ++ "-" ++ pkg.version,
                pkg.name ++ "-" ++ pkg.version ++ ".tar.xz"])
        , .xzCompress 6
            (config.buildDir ++
              [pkg.name ++ "-" ++ pkg.version, pkg.name ++ "-" ++ pkg.version ++ ".tar"])
            (config.buildDir ++
              [pkg.name ++ "-" ++ pkg.version,
                pkg.name ++ "-" ++ pkg.version ++ ".tar.xz"])
        , .removeFile
            (config.buildDir ++
              [pkg.name ++ "-" ++ pkg.version, pkg.name ++ "-" ++ pkg.version ++ ".tar"]) ] := by
  intro config pkg
  simp [package_trace, base_dir, pkg_dir, XZ_LEVEL]

/-! ### C9 -/

/-- A string of length zero is the empty string. -/
theorem str_empty_of_len (s : String) (h : s.length = 0) : s = "" := by
  have : s.data = [] := List.length_eq_zero.mp h
  cases s
  simp_all

/-- C9: for a source that parses as a URL, the destination filename is
the final path segment, and the derivation fails (always with
`UnknownFilePath`) exactly when the URL has no path segments or its
final segment is empty; a source that is not a URL is returned
unchanged.  The hypothesis reflects the `url` crate's guarantee that
`path_segments()` never yields an empty list. -/
theorem c9_file_path_spec :
    (∀ u : UrlModel, (∀ segs, u.pathSegments = some segs → segs ≠ []) →
      (file_path (.url u) = some (.error (.unknownFilePath u)) ↔
        (u.pathSegments = none ∨
          ∃ segs, u.pathSegments = some segs ∧ segs.getLast? = some ""))) ∧
    (∀ (u : UrlModel) (segs : List String) (filename : String),
      u.pathSegments = some segs → segs.getLast? = some filename → filename ≠ "" →
      file_path (.url u) = some (.ok filename)) ∧
    (∀ s : String, file_path (.notUrl s) = some (.ok s)) := by
  refine ⟨?_, ?_, ?_⟩
  · intro u hne
    cases hseg : u.pathSegments with
    | none => simp only [file_path, hseg]; simp
    | some segs =>
      cases hlast : segs.getLast? with
      | none => exact absurd (List.getLast?_eq_none_iff.mp hlast) (hne segs hseg)
      | some filename =>
        by_cases hf : filename = ""
        · subst hf
          simp only [file_path, hseg, hlast, if_pos rfl]
          exact ⟨fun _ => Or.inr ⟨segs, rfl, hlast⟩, fun _ => rfl⟩
        · have hlen : ¬filename.length = 0 := fun h0 => hf (str_empty_of_len filename h0)
          simp only [file_path, hseg, hlast, if_neg hlen]
          constructor
          · intro h; cases h
          · rintro (h | ⟨segs2, hsegs2, hlast2⟩)
            · cases h
            · injection hsegs2 with hsegs2
              subst hsegs2
              rw [hlast] at hlast2
              injection hlast2 with hlast2
              exact absurd hlast2 hf
  · intro u segs filename hseg hlast hf
    have hlen : ¬filename.length = 0 := fun h0 => hf (str_empty_of_len filename h0)
    simp only [file_path, hseg, hlast, if_neg hlen]
  · intro s
    rfl

/-- C9 witness: both directions at concrete URLs — a normal URL yields
its final segment; a URL ending in a slash (empty final segment)
fails with `UnknownFilePath`. -/
theorem c9_file_path_spec_witness :
    file_path (.url ⟨"https", some ["ex", "file.tar.gz"]⟩) =
        some (.ok "file.tar.gz") ∧
      file_path (.url ⟨"https", some ["ex", ""]⟩) =
        some (.error (.unknownFilePath ⟨"https", some ["ex", ""]⟩)) :=
  ⟨c9_file_path_spec.2.1 ⟨"https", some ["ex", "file.tar.gz"]⟩ ["ex", "file.tar.gz"]
      "file.tar.gz" rfl rfl (by decide),
    (c9_file_path_spec.1 ⟨"https", some ["ex", ""]⟩
        (by intro segs h; cases h; simp)).mpr
      (Or.inr ⟨["ex", ""], rfl, rfl⟩)⟩

end Mkpkg

namespace Mkpkg

/-! ### C5 -/

/-- A listed extension that is a suffix of the filename makes
`try_extraction_matches` fire. -/
theorem matches_true_of_mem {f e : ByteStr} {L : List ByteStr} (he : e ∈ L)
    (h : e <:+ f) : try_extraction_matches f L = true :=
  (try_extraction_matches_iff f L).mpr ⟨e, he, h⟩

/-- If a known suffix `a` of the filename is incomparable with every
listed extension, `try_extraction_matches` cannot fire. -/
theorem matches_false_of_incomp {f a : ByteStr} (ha : a <:+ f) (L : List ByteStr)
    (h : ∀ b ∈ L, ¬a <:+ b ∧ ¬b <:+ a) : try_extraction_matches f L = false :=
  (try_extraction_matches_eq_false f L).mpr fun e he =>
    suffix_incomp ha (h e he).1 (h e he).2

/-- C5: the extraction dispatch of `Archiver::extract` selects its
pipeline purely by filename suffix over raw bytes: `.tar.gz`/`.tgz`
are gzip-decompressed then untarred, `.tar.bz2`/`.tbz` bzip2 then
untarred, `.tar.xz`/`.txz` xz then untarred; a plain `.gz`, `.bz2` or
`.xz` (no tar suffix) is decompressed only; any name matching no
listed suffix is copied into `build/` as-is. -/
theorem c5_extract_dispatch (f : ByteStr) :
    ((bytes ".tar.gz" <:+ f ∨ bytes ".tgz" <:+ f) →
        extract_action f = .unpackTar (some .gz)) ∧
      ((bytes ".tar.bz2" <:+ f ∨ bytes ".tbz" <:+ f) →
        extract_action f = .unpackTar (some .bz2)) ∧
      ((bytes ".tar.xz" <:+ f ∨ bytes ".txz" <:+ f) →
        extract_action f = .unpackTar (some .xz)) ∧
      (bytes ".gz" <:+ f → ¬bytes ".tar.gz" <:+ f →
        extract_action f = .decompressOnly .gz) ∧
      (bytes ".bz2" <:+ f → ¬bytes ".tar.bz2" <:+ f →
        extract_action f = .decompressOnly .bz2) ∧
      (bytes ".xz" <:+ f → ¬bytes ".tar.xz" <:+ f →
        extract_action f = .decompressOnly .xz) ∧
      ((try_extraction_matches f IS_GZ = false ∧
          try_extraction_matches f IS_BZIP2 = false ∧
          try_extraction_matches f IS_XZ = false ∧
          try_extraction_matches f IS_TAR = false) →
        extract_action f = .copyAsIs) := by
  refine ⟨?_, ?_, ?_, ?_, ?_, ?_, ?_⟩
  · rintro (h | h)
    · have hgz := matches_true_of_mem (show bytes ".gz" ∈ IS_GZ by decide)
        (List.IsSuffix.trans (by decide) h)
      have htar := matches_true_of_mem (show bytes ".tar.gz" ∈ IS_TAR by decide) h
      simp [extract_action, hgz, htar]
    · have hgz := matches_true_of_mem (show bytes ".tgz" ∈ IS_GZ by decide) h
      have htar := matches_true_of_mem (show bytes ".tgz" ∈ IS_TAR by decide) h
      simp [extract_action, hgz, htar]
  · rintro (h | h)
    · have hgz := matches_false_of_incomp h IS_GZ (by decide)
      have hbz := matches_true_of_mem (show bytes ".bz2" ∈ IS_BZIP2 by decide)
        (List.IsSuffix.trans (by decide) h)
      have htar := matches_true_of_mem (show bytes ".tar.bz2" ∈ IS_TAR by decide) h
      simp [extract_action, hgz, hbz, htar]
    · have hgz := matches_false_of_incomp h IS_GZ (by decide)
      have hbz := matches_true_of_mem (show bytes ".tbz" ∈ IS_BZIP2 by decide) h
      have htar := matches_true_of_mem (show bytes ".tbz" ∈ IS_TAR by decide) h
      simp [extract_action, hgz, hbz, htar]
  · rintro (h | h)
    · have hgz := matches_false_of_incomp h IS_GZ (by decide)
      have hbz := matches_false_of_incomp h IS_BZIP2 (by decide)
      have hxz := matches_true_of_mem (show bytes ".xz" ∈ IS_XZ by decide)
        (List.IsSuffix.trans (by decide) h)
      have htar := matches_true_of_mem (show bytes ".tar.xz" ∈ IS_TAR by decide) h
      simp [extract_action, hgz, hbz, hxz, htar]
    · have hgz := matches_false_of_incomp h IS_GZ (by decide)
      have hbz := matches_false_of_incomp h IS_BZIP2 (by decide)
      have hxz := matches_true_of_mem (show bytes ".txz" ∈ IS_XZ by decide) h
      have htar := matches_true_of_mem (show bytes ".txz" ∈ IS_TAR by decide) h
      simp [extract_action, hgz, hbz, hxz, htar]
  · intro h1 h2
    have hgz := matches_true_of_mem (show bytes ".gz" ∈ IS_GZ by decide) h1
    have htar : try_extraction_matches f IS_TAR = false := by
      refine (try_extraction_matches_eq_false f IS_TAR).mpr ?_
      intro e he
      simp only [IS_TAR, List.mem_cons, List.not_mem_nil, or_false] at he
      rcases he with rfl | rfl | rfl | rfl | rfl | rfl
      · exact h2
      · exact suffix_incomp h1 (by decide) (by decide)
      · exact suffix_incomp h1 (by decide) (by decide)
      · exact suffix_incomp h1 (by decide) (by decide)
      · exact suffix_incomp h1 (by decide) (by decide)
      · exact suffix_incomp h1 (by decide) (by decide)
    simp [extract_action, hgz, htar]
  · intro h1 h2
    have hgz := matches_false_of_incomp h1 IS_GZ (by decide)
    have hbz := matches_true_of_mem (show bytes ".bz2" ∈ IS_BZIP2 by decide) h1
    have htar : try_extraction_matches f IS_TAR = false := by
      refine (try_extraction_matches_eq_false f IS_TAR).mpr ?_
      intro e he
      simp only [IS_TAR, List.mem_cons, List.not_mem_nil, or_false] at he
      rcases he with rfl | rfl | rfl | rfl | rfl | rfl
      · exact suffix_incomp h1 (by decide) (by decide)
      · exact h2
      · exact suffix_incomp h1 (by decide) (by decide)
      · exact suffix_incomp h1 (by decide) (by decide)
      · exact suffix_incomp h1 (by decide) (by decide)
      · exact suffix_incomp h1 (by decide) (by decide)
    simp [extract_action, hgz, hbz, htar]
  · intro h1 h2
    have hgz := matches_false_of_incomp h1 IS_GZ (by decide)
    have hbz := matches_false_of_incomp h1 IS_BZIP2 (by decide)
    have hxz := matches_true_of_mem (show bytes ".xz" ∈ IS_XZ by decide) h1
    have htar : try_extraction_matches f IS_TAR = false := by
      refine (try_extraction_matches_eq_false f IS_TAR).mpr ?_
      intro e he
      simp only [IS_TAR, List.mem_cons, List.not_mem_nil, or_false] at he
      rcases he with rfl | rfl | rfl | rfl | rfl | rfl
      · exact suffix_incomp h1 (by decide) (by decide)
      · exact suffix_incomp h1 (by decide) (by decide)
      · exact h2
      · exact suffix_incomp h1 (by decide) (by decide)
      · exact suffix_incomp h1 (by decide) (by decide)
      · exact suffix_incomp h1 (by decide) (by decide)
    simp [extract_action, hgz, hbz, hxz, htar]
  · rintro ⟨h1, h2, h3, h4⟩
    simp [extract_action, h1, h2, h3, h4]

/-- C5 witness: the dispatch applied to concrete filenames of each
kind. -/
theorem c5_extract_dispatch_witness :
    extract_action (bytes "a-1.0.tar.gz") = .unpackTar (some .gz) ∧
      extract_action (bytes "b.gz") = .decompressOnly .gz ∧
      extract_action (bytes "c.patch") = .copyAsIs :=
  ⟨(c5_extract_dispatch (bytes "a-1.0.tar.gz")).1 (Or.inl (by decide)),
    (c5_extract_dispatch (bytes "b.gz")).2.2.2.1 (by decide) (by decide),
    (c5_extract_dispatch (bytes "c.patch")).2.2.2.2.2.2 (by decide)⟩

end Mkpkg
